import Mathlib

/-!
Shallow embedding of the Jellyseerr Pi UI interaction engine
(`src/ui.py` together with the constants of `src/config.py`):
the navigation state machine (`navigate`, `handle_back`, the select
handlers), the on-screen keyboard cursor (`handle_dpad_motion`),
the deferred back-transition slot checked by the main loop
(`run_tick_scheduled_back`), the search-completion write-back of
`perform_search`, and the LRU image cache (`load_image`,
`add_to_cache`).

Timestamps (Python `time.time()` floats) are modelled as rationals,
Python ints as `Int`, and the fetch-and-decode pipeline of
`api.download_image` plus pygame/PIL decoding as an abstract
`String → Option α` (`none` = download failure, oversized payload, or
decode failure — every one of those paths falls through to the
placeholder without touching the cache).
-/

/-- RGB color triple, as in `config.py`. -/
abbrev Color := Nat × Nat × Nat

/-- config.COLOR_PRIMARY. -/
def COLOR_PRIMARY : Color := (100, 200, 255)

/-- config.COLOR_TEXT. -/
def COLOR_TEXT : Color := (240, 240, 240)

/-- config.COLOR_SUCCESS. -/
def COLOR_SUCCESS : Color := (100, 255, 100)

/-- config.COLOR_ERROR : Color. -/
def COLOR_ERROR : Color := (255, 100, 100)

/-- config.MAX_IMAGE_CACHE_SIZE (default 50). -/
def MAX_IMAGE_CACHE_SIZE : Nat := 50

/-- MediaSummary record; only the fields the modelled handlers read. -/
structure Media where
  id : Nat
  mediaType : String
  deriving DecidableEq

/-- Mutable UI state of `JellyseerrUI` (the fields the claims touch).
`screen_stack` grows at the end (`list.append` / `list.pop`). -/
structure UIState where
  current_screen : String
  screen_stack : List String
  menu_items : List String
  selected_index : Int
  message : Option String
  message_color : Color
  message_time : ℚ
  scheduled_back_time : Option ℚ
  search_query : String
  search_results : List Media
  keyboard_row : Int
  keyboard_col : Int
  browse_results : List Media
  browse_type : Option String
  selected_media : Option Media
  running : Bool
  deriving DecidableEq

/-- The fixed on-screen keyboard grid (`self.keyboard_layout`, ui.py 129-134). -/
def keyboard_layout : List (List String) :=
  [["a", "b", "c", "d", "e", "f", "g", "h", "i", "j"],
   ["k", "l", "m", "n", "o", "p", "q", "r", "s", "t"],
   ["u", "v", "w", "x", "y", "z", "1", "2", "3", "4"],
   ["5", "6", "7", "8", "9", "0", " ", "DEL", "SEARCH", "CANCEL"]]

/-- Length of keyboard row `r` (Python `len(self.keyboard_layout[r])`;
total via `getD`, the callers keep `r` a valid index). -/
def keyboard_row_len (r : Int) : Int :=
  ((keyboard_layout.getD r.toNat []).length : Int)

/-- `show_message` (ui.py 260-265): set the transient message, its color
(`color or config.COLOR_TEXT`) and its expiry `time.time() + duration`. -/
def show_message (s : UIState) (now : ℚ) (message : String)
    (color : Option Color) (duration : ℚ) : UIState :=
  { s with message := some message,
           message_color := color.getD COLOR_TEXT,
           message_time := now + duration }

/-- Active list length used by `navigate` (ui.py 423-431): which list the
current screen navigates, `none` for screens without list navigation. -/
def nav_items_len (s : UIState) : Option Nat :=
  if s.current_screen = "main_menu" then some s.menu_items.length
  else if s.current_screen = "search_results" then some s.search_results.length
  else if s.current_screen = "browse" then some s.browse_results.length
  else none

/-- `navigate` (ui.py 420-448): clamp direction to [-1, 1], step the
selection, wrap at both ends; empty list resets the index to 0. -/
def navigate (s : UIState) (direction : Int) : UIState :=
  match nav_items_len s with
  | none => s
  | some n =>
    if n = 0 then { s with selected_index := 0 }
    else
      let d := max (-1) (min 1 direction)
      let newIndex := s.selected_index + d
      if newIndex < 0 then { s with selected_index := (n : Int) - 1 }
      else if (n : Int) ≤ newIndex then { s with selected_index := 0 }
      else { s with selected_index := newIndex }

/-- `handle_back` (ui.py 463-472): pop the stack into the current screen,
else force `main_menu`, else no-op; popping resets the selection. -/
def handle_back (s : UIState) : UIState :=
  match s.screen_stack.getLast? with
  | some prev =>
    { s with current_screen := prev,
             screen_stack := s.screen_stack.dropLast,
             selected_index := 0 }
  | none =>
    if s.current_screen ≠ "main_menu" then
      { s with current_screen := "main_menu", selected_index := 0 }
    else s

/-- The shared push pattern of the select handlers (ui.py 477-478, 497-498,
504-505): append the current screen to the stack and switch to the target
screen. The source never resets `selected_index` on this path. -/
def pushScreen (s : UIState) (next : String) : UIState :=
  { s with screen_stack := s.screen_stack ++ [s.current_screen],
           current_screen := next }

/-- Fold `pushScreen` over a list of target screens. -/
def pushAll (s : UIState) (nexts : List String) : UIState :=
  nexts.foldl pushScreen s

/-- `handle_main_menu_select` (ui.py 474-491). Index 2 additionally runs the
synchronous part of `load_popular_content` (its `show_message`); the API
fetch itself happens on a background thread. -/
def handle_main_menu_select (s : UIState) (now : ℚ) : UIState :=
  if s.selected_index = 0 then
    { s with screen_stack := s.screen_stack ++ [s.current_screen],
             current_screen := "keyboard",
             browse_type := some "movie", search_query := "" }
  else if s.selected_index = 1 then
    { s with screen_stack := s.screen_stack ++ [s.current_screen],
             current_screen := "keyboard",
             browse_type := some "tv", search_query := "" }
  else if s.selected_index = 2 then
    show_message
      { s with screen_stack := s.screen_stack ++ [s.current_screen],
               current_screen := "browse" }
      now "Loading popular content..." (some COLOR_PRIMARY) 3
  else if s.selected_index = 3 then
    { s with running := false }
  else s

/-- `handle_search_result_select` (ui.py 493-498). -/
def handle_search_result_select (s : UIState) : UIState :=
  if 0 ≤ s.selected_index ∧ s.selected_index < (s.search_results.length : Int) then
    { s with selected_media := s.search_results.get? s.selected_index.toNat,
             screen_stack := s.screen_stack ++ [s.current_screen],
             current_screen := "media_detail" }
  else s

/-- `handle_browse_select` (ui.py 500-505). -/
def handle_browse_select (s : UIState) : UIState :=
  if 0 ≤ s.selected_index ∧ s.selected_index < (s.browse_results.length : Int) then
    { s with selected_media := s.browse_results.get? s.selected_index.toNat,
             screen_stack := s.screen_stack ++ [s.current_screen],
             current_screen := "media_detail" }
  else s

/-- `handle_media_detail_select` (ui.py 507-518). The outcome of
`api.request_media` is the abstract boolean `requestOk`; on success the
handler shows the success message and schedules the deferred back
transition 1.5 seconds out, overwriting any prior slot. -/
def handle_media_detail_select (s : UIState) (now : ℚ) (requestOk : Bool) : UIState :=
  match s.selected_media with
  | none => s
  | some _ =>
    if requestOk then
      let s1 := show_message s now "Request submitted successfully!" (some COLOR_SUCCESS) 3
      { s1 with scheduled_back_time := some (now + 3 / 2) }
    else
      show_message s now "Failed to submit request" (some COLOR_ERROR) 3

/-- Scheduled-action check of the main loop (ui.py 1011-1013): when the
slot holds a due timestamp, clear it and run `handle_back` once. -/
def run_tick_scheduled_back (s : UIState) (now : ℚ) : UIState :=
  match s.scheduled_back_time with
  | some t => if t ≤ now then handle_back { s with scheduled_back_time := none } else s
  | none => s

/-- Row update of `handle_dpad_motion` (ui.py 305-308): up clamps at 0,
down clamps at `len(self.keyboard_layout) - 1`. -/
def kb_move_row (r y : Int) : Int :=
  if y = 1 then max 0 (r - 1)
  else if y = -1 then min ((keyboard_layout.length : Int) - 1) (r + 1)
  else r

/-- Column update of `handle_dpad_motion` (ui.py 310-314): left clamps at
0, right clamps at `len(self.keyboard_layout[row]) - 1` for the already
updated row. -/
def kb_move_col (c x row : Int) : Int :=
  if x = -1 then max 0 (c - 1)
  else if x = 1 then min (keyboard_row_len row - 1) (c + 1)
  else c

/-- `handle_dpad_motion` (ui.py 299-320): on the keyboard screen move the
2D cursor with clamping (column clamped against the post-move row when
moving right); on other screens map vertical hat motion to `navigate`. -/
def handle_dpad_motion (s : UIState) (x y : Int) : UIState :=
  if s.current_screen = "keyboard" then
    let row := kb_move_row s.keyboard_row y
    let col := kb_move_col s.keyboard_col x row
    { s with keyboard_row := row, keyboard_col := col }
  else
    if y = 1 then navigate s (-1)
    else if y = -1 then navigate s 1
    else s

/-- Valid keyboard-cursor coordinates: actual indices into the grid. -/
def kb_valid (s : UIState) : Prop :=
  0 ≤ s.keyboard_row ∧ s.keyboard_row < (keyboard_layout.length : Int) ∧
  0 ≤ s.keyboard_col ∧ s.keyboard_col < keyboard_row_len s.keyboard_row

instance (s : UIState) : Decidable (kb_valid s) := by
  unfold kb_valid; infer_instance

/-- A completed search API call: the query the background thread ran and
the result list it got back. -/
structure SearchCompletion where
  query : String
  results : List Media
  deriving DecidableEq

/-- Write-back performed by `search_in_background` (ui.py 589-609) when a
search completes: a non-empty result list overwrites `search_results`,
switches to the results screen and resets the selection; an empty one
shows the error message. There is no request-id comparison anywhere on
this path. -/
def apply_search_completion (s : UIState) (now : ℚ) (c : SearchCompletion) : UIState :=
  if c.results ≠ [] then
    { s with search_results := c.results,
             current_screen := "search_results",
             selected_index := 0,
             message := none }
  else
    show_message s now "No results found" (some COLOR_ERROR) 3

/-- Synchronous part of `perform_search` (ui.py 585-587): only the
transient message; the API call runs on a freshly started thread. -/
def perform_search_dispatch (s : UIState) (now : ℚ) (query : String) : UIState :=
  show_message s now ("Searching for \x27" ++ query ++ "\x27...") (some COLOR_PRIMARY) 3

/-- Completions applied in arrival order, as the daemon threads finish. -/
def apply_search_completions (s : UIState) (now : ℚ)
    (cs : List SearchCompletion) : UIState :=
  cs.foldl (fun t c => apply_search_completion t now c) s

/-- The image cache: `self.image_cache` (an `OrderedDict`, front = least
recently used) plus `self.max_cache_size`. Values are abstract decoded
images `α`. -/
structure ImageCache (α : Type) where
  entries : List (String × α)
  maxSize : Nat
  deriving DecidableEq

/-- Key membership, Python `url in self.image_cache`. -/
def cacheMem {α : Type} (entries : List (String × α)) (url : String) : Bool :=
  entries.any (fun e => e.1 == url)

/-- Lookup, Python `self.image_cache[url]` guarded by membership. -/
def cacheLookup {α : Type} (entries : List (String × α)) (url : String) : Option α :=
  (entries.find? (fun e => e.1 == url)).map Prod.snd

/-- `OrderedDict.move_to_end(url)`: move the entry for `url` to the
most-recently-used end (identity when absent; the source only calls it
after a membership check). -/
def odMoveToEnd {α : Type} (entries : List (String × α)) (url : String) :
    List (String × α) :=
  match cacheLookup entries url with
  | none => entries
  | some v => entries.filter (fun e => e.1 != url) ++ [(url, v)]

/-- `OrderedDict` assignment `d[url] = v`: update in place when the key
exists, else append at the most-recently-used end. -/
def odSet {α : Type} (entries : List (String × α)) (url : String) (v : α) :
    List (String × α) :=
  if cacheMem entries url then
    entries.map (fun e => if e.1 == url then (e.1, v) else e)
  else entries ++ [(url, v)]

/-- `_add_to_cache` (ui.py 223-232): when the cache has reached capacity,
`popitem(last=False)` evicts the least-recently-used (front) entry, then
the new image is inserted at the most-recently-used end. -/
def add_to_cache {α : Type} (c : ImageCache α) (url : String) (img : α) :
    ImageCache α :=
  let entries := if c.maxSize ≤ c.entries.length then c.entries.drop 1 else c.entries
  { c with entries := odSet entries url img }

/-- `load_image` (ui.py 169-221). `fetch` is the fetch-and-decode pipeline
(`api.download_image` plus the pygame/PIL decode attempts); every failure
path of the source (empty data, oversized payload reported as `None`,
both decoders failing, an exception) returns the placeholder and leaves
the cache untouched, which `fetch url = none` models. A hit moves the
entry to the most-recently-used end; a successful miss inserts via
`_add_to_cache`. Returns the image and the updated cache. -/
def load_image {α : Type} (c : ImageCache α) (placeholder : α)
    (fetch : String → Option α) (url : String) : α × ImageCache α :=
  if url = "" then (placeholder, c)
  else
    match cacheLookup c.entries url with
    | some img => (img, { c with entries := odMoveToEnd c.entries url })
    | none =>
      match fetch url with
      | some img => (img, add_to_cache c url img)
      | none => (placeholder, c)

/-- Fold `load_image` over a list of URLs, keeping only the cache. -/
def load_images_all {α : Type} (c : ImageCache α) (placeholder : α)
    (fetch : String → Option α) (urls : List String) : ImageCache α :=
  urls.foldl (fun acc u => (load_image acc placeholder fetch u).2) c

/-- Concrete state used to instantiate the theorems: the main menu with its
four entries, as rendered by `draw_main_menu`. -/
def sampleState : UIState :=
  { current_screen := "main_menu",
    screen_stack := [],
    menu_items := ["Search Movies", "Search TV Shows", "Browse Popular", "Exit"],
    selected_index := 0,
    message := none,
    message_color := COLOR_TEXT,
    message_time := 0,
    scheduled_back_time := none,
    search_query := "",
    search_results := [],
    keyboard_row := 0,
    keyboard_col := 0,
    browse_results := [],
    browse_type := none,
    selected_media := none,
    running := true }

/-! Helper lemmas about `navigate`. -/

lemma nav_items_len_set_index (s : UIState) (i : Int) :
    nav_items_len { s with selected_index := i } = nav_items_len s := rfl

lemma navigate_nav_items_len (s : UIState) (d : Int) :
    nav_items_len (navigate s d) = nav_items_len s := by
  unfold navigate
  cases h : nav_items_len s with
  | none => dsimp only; exact h
  | some n =>
    dsimp only
    split
    · exact (nav_items_len_set_index s 0).trans h
    · split
      · exact (nav_items_len_set_index s _).trans h
      · split
        · exact (nav_items_len_set_index s 0).trans h
        · exact (nav_items_len_set_index s _).trans h

lemma navigate_index_emod (s : UIState) (n : Nat) (d : Int)
    (h : nav_items_len s = some n) (hn : n ≠ 0)
    (h0 : 0 ≤ s.selected_index) (h1 : s.selected_index < (n : Int))
    (hd : d = -1 ∨ d = 0 ∨ d = 1) :
    (navigate s d).selected_index = (s.selected_index + d) % (n : Int) := by
  have hclamp : max (-1) (min 1 d) = d := by rcases hd with h | h | h <;> subst h <;> decide
  have hnpos : (0 : Int) < (n : Int) := by
    have := Nat.pos_of_ne_zero hn
    exact_mod_cast this
  unfold navigate
  rw [h]
  dsimp only
  rw [if_neg hn, hclamp]
  by_cases hlt : s.selected_index + d < 0
  · rw [if_pos hlt]
    have hd1 : d = -1 := by rcases hd with h | h | h <;> omega
    have hidx : s.selected_index = 0 := by omega
    dsimp only
    rw [hidx, hd1]
    have hm : (-1 : Int) % (n : Int) = (n : Int) - 1 := by
      have h2 : ((-1 : Int) + (n : Int) * 1) % (n : Int) = (-1 : Int) % (n : Int) := by
        rw [Int.add_mul_emod_self_left]
      rw [← h2, show (-1 : Int) + (n : Int) * 1 = (n : Int) - 1 by ring,
          Int.emod_eq_of_lt (by omega) (by omega)]
    rw [show ((0 : Int) + -1) = -1 by ring, hm]
  · rw [if_neg hlt]
    by_cases hge : (n : Int) ≤ s.selected_index + d
    · rw [if_pos hge]
      have heq : s.selected_index + d = (n : Int) := by rcases hd with h | h | h <;> omega
      dsimp only
      rw [heq, Int.emod_self]
    · rw [if_neg hge]
      dsimp only
      rw [Int.emod_eq_of_lt (by omega) (by omega)]

lemma navigate_iter_index (s : UIState) (n : Nat)
    (h : nav_items_len s = some n) (hn : n ≠ 0)
    (h0 : 0 ≤ s.selected_index) (h1 : s.selected_index < (n : Int)) :
    ∀ k : Nat,
      nav_items_len ((fun t => navigate t 1)^[k] s) = some n ∧
      ((fun t => navigate t 1)^[k] s).selected_index
        = (s.selected_index + k) % (n : Int) := by
  have hnpos : (0 : Int) < (n : Int) := by
    have := Nat.pos_of_ne_zero hn
    exact_mod_cast this
  intro k
  induction k with
  | zero =>
    refine ⟨h, ?_⟩
    simp [Int.emod_eq_of_lt h0 h1]
  | succ k ih =>
    obtain ⟨ihlen, ihidx⟩ := ih
    rw [Function.iterate_succ_apply']
    have hb0 : 0 ≤ ((fun t => navigate t 1)^[k] s).selected_index := by
      rw [ihidx]; exact Int.emod_nonneg _ (by omega)
    have hb1 : ((fun t => navigate t 1)^[k] s).selected_index < (n : Int) := by
      rw [ihidx]; exact Int.emod_lt_of_pos _ hnpos
    constructor
    · rw [navigate_nav_items_len, ihlen]
    · rw [navigate_index_emod _ n 1 ihlen hn hb0 hb1 (by tauto), ihidx]
      have key : ∀ a : Int, (a % (n : Int) + 1) % (n : Int) = (a + 1) % (n : Int) := by
        intro a
        conv_rhs => rw [Int.add_emod]
        rw [Int.add_emod (a % (n : Int)) 1, Int.emod_emod_of_dvd _ dvd_rfl]
      rw [key]
      congr 1
      push_cast
      ring


/-- C4: for every non-empty active list of length N and every starting
selectedIndex in [0, N-1], each single call of `navigate` with direction
d ∈ \x7b-1, 0, +1\x7d computes (selectedIndex + d) mod N (wrapping from 0 to
N-1 when moving up and from N-1 to 0 when moving down), and calling
`navigate` with +1 N times returns selectedIndex to its starting value. -/
theorem c4_move_selection_wraparound (s : UIState) (n : Nat)
    (h : nav_items_len s = some n) (hn : n ≠ 0)
    (h0 : 0 ≤ s.selected_index) (h1 : s.selected_index < (n : Int)) :
    (∀ d : Int, d = -1 ∨ d = 0 ∨ d = 1 →
      (navigate s d).selected_index = (s.selected_index + d) % (n : Int)) ∧
    ((fun t => navigate t 1)^[n] s).selected_index = s.selected_index := by
  constructor
  · intro d hd
    exact navigate_index_emod s n d h hn h0 h1 hd
  · have hiter := (navigate_iter_index s n h hn h0 h1 n).2
    rw [hiter,
        show s.selected_index + (n : Int) = s.selected_index + (n : Int) * 1 by ring,
        Int.add_mul_emod_self_left, Int.emod_eq_of_lt h0 h1]

/-- C4 witness: on the main menu (4 items, index 0), one step down moves to
(0 + 1) mod 4 and four steps return to the start. -/
theorem c4_move_selection_wraparound_witness :
    (navigate sampleState 1).selected_index
      = (sampleState.selected_index + 1) % (4 : Int) ∧
    ((fun t => navigate t 1)^[4] sampleState).selected_index
      = sampleState.selected_index := by
  have h := c4_move_selection_wraparound sampleState 4 (by decide) (by decide)
    (by decide) (by decide)
  exact ⟨h.1 1 (by tauto), h.2⟩

/-- C7: when the active list of the current screen is empty, `navigate`
always sets selectedIndex to 0, for any direction argument, and (being a
total function) never throws. -/
theorem c7_navigate_empty_list (s : UIState)
    (h : nav_items_len s = some 0) :
    ∀ d : Int, (navigate s d).selected_index = 0 := by
  intro d
  unfold navigate
  rw [h]
  dsimp only
  rw [if_pos rfl]

/-- C7 witness: on the search-results screen with no results and a stale
index 3, any navigation (here direction -7) resets the index to 0. -/
theorem c7_navigate_empty_list_witness :
    (navigate { sampleState with current_screen := "search_results",
                                 selected_index := 3 } (-7)).selected_index = 0 :=
  c7_navigate_empty_list _ (by decide) (-7)

/-- C10: `navigate` is safe for arbitrary integer directions: it behaves
exactly as with the direction clamped to [-1, 1]; on an empty active list
the index becomes 0; and from any in-range index the resulting index is
again in [0, len-1], so no out-of-range access can occur. -/
theorem c10_navigate_arbitrary_direction (s : UIState) (n : Nat) (d : Int)
    (h : nav_items_len s = some n) :
    navigate s d = navigate s (max (-1) (min 1 d)) ∧
    (n = 0 → (navigate s d).selected_index = 0) ∧
    (0 ≤ s.selected_index → s.selected_index < (n : Int) →
      0 ≤ (navigate s d).selected_index ∧
      (navigate s d).selected_index < (n : Int)) := by
  refine ⟨?_, ?_, ?_⟩
  · have hc : max (-1) (min 1 (max (-1) (min 1 d))) = max (-1) (min 1 d) := by
      omega
    unfold navigate
    rw [h]
    dsimp only
    rw [hc]
  · intro h0
    unfold navigate
    rw [h]
    dsimp only
    rw [if_pos h0]
  · intro h0 h1
    have hn : n ≠ 0 := by omega
    unfold navigate
    rw [h]
    dsimp only
    rw [if_neg hn]
    by_cases hlt : s.selected_index + max (-1) (min 1 d) < 0
    · rw [if_pos hlt]
      dsimp only
      omega
    · rw [if_neg hlt]
      by_cases hge : (n : Int) ≤ s.selected_index + max (-1) (min 1 d)
      · rw [if_pos hge]
        dsimp only
        omega
      · rw [if_neg hge]
        dsimp only
        omega

/-- C10 witness: direction 1000 on the main menu behaves as direction 1 and
keeps the index in [0, 3]. -/
theorem c10_navigate_arbitrary_direction_witness :
    navigate sampleState 1000 = navigate sampleState 1 ∧
    0 ≤ (navigate sampleState 1000).selected_index ∧
    (navigate sampleState 1000).selected_index < (4 : Int) := by
  have h := c10_navigate_arbitrary_direction sampleState 4 1000 (by decide)
  refine ⟨?_, (h.2.2 (by decide) (by decide)).1, (h.2.2 (by decide) (by decide)).2⟩
  have := h.1
  simpa using this

/-! Helper lemmas for the push / back round trip. -/

lemma handle_back_pushScreen (s : UIState) (next : String) :
    handle_back (pushScreen s next) = { s with selected_index := 0 } := by
  simp [handle_back, pushScreen, List.getLast?_concat, List.dropLast_concat]

lemma pushAll_set_index (nexts : List String) : ∀ (s : UIState) (i : Int),
    pushAll { s with selected_index := i } nexts
      = { pushAll s nexts with selected_index := i } := by
  induction nexts with
  | nil => intro s i; rfl
  | cons n ns ih =>
    intro s i
    show pushAll (pushScreen { s with selected_index := i } n) ns = _
    have h1 : pushScreen { s with selected_index := i } n
        = { pushScreen s n with selected_index := i } := rfl
    rw [h1, ih]
    rfl

lemma back_iter_pushAll (nexts : List String) : ∀ s : UIState,
    handle_back^[nexts.length] (pushAll s nexts)
      = if nexts = [] then s else { s with selected_index := 0 } := by
  induction nexts using List.reverseRecOn with
  | nil => intro s; simp [pushAll]
  | append_singleton ns n ih =>
    intro s
    have hlen : (ns ++ [n]).length = ns.length + 1 := by simp
    have hpush : pushAll s (ns ++ [n]) = pushScreen (pushAll s ns) n := by
      unfold pushAll
      rw [List.foldl_append]
      rfl
    rw [hlen, hpush, Function.iterate_succ_apply, handle_back_pushScreen,
        ← pushAll_set_index, ih]
    have hne : ns ++ [n] ≠ [] := by simp
    rw [if_neg hne]
    by_cases hns : ns = []
    · rw [if_pos hns]
    · rw [if_neg hns]

/-- C3 counterexample: on the search-results screen with selection 1,
selecting an item pushes the screen and switches to the detail screen but
does not reset selectedIndex to 0 — it stays 1. -/
theorem c3_push_screen_counterexample :
    (handle_search_result_select
      { sampleState with current_screen := "search_results",
                         search_results := [⟨1, "movie"⟩, ⟨2, "tv"⟩],
                         selected_index := 1 }).current_screen = "media_detail" ∧
    (handle_search_result_select
      { sampleState with current_screen := "search_results",
                         search_results := [⟨1, "movie"⟩, ⟨2, "tv"⟩],
                         selected_index := 1 }).screen_stack = ["search_results"] ∧
    (handle_search_result_select
      { sampleState with current_screen := "search_results",
                         search_results := [⟨1, "movie"⟩, ⟨2, "tv"⟩],
                         selected_index := 1 }).selected_index ≠ 0 := by
  decide

/-- C3 amended: each push-screen path pushes the current screen onto the
back-stack and sets the current screen to the target, but leaves
selectedIndex unchanged (the index is only reset on goBack): the main-menu
handler at indices 0 and 1 (target keyboard) and at index 2 (target
browse), and the search-result and browse select handlers at every
in-range index (target media_detail). -/
theorem c3_push_screen_amended (s : UIState) (now : ℚ) :
    ((s.selected_index = 0 ∨ s.selected_index = 1) →
      (handle_main_menu_select s now).current_screen = "keyboard" ∧
      (handle_main_menu_select s now).screen_stack
        = s.screen_stack ++ [s.current_screen] ∧
      (handle_main_menu_select s now).selected_index = s.selected_index) ∧
    (s.selected_index = 2 →
      (handle_main_menu_select s now).current_screen = "browse" ∧
      (handle_main_menu_select s now).screen_stack
        = s.screen_stack ++ [s.current_screen] ∧
      (handle_main_menu_select s now).selected_index = s.selected_index) ∧
    (0 ≤ s.selected_index → s.selected_index < (s.search_results.length : Int) →
      (handle_search_result_select s).current_screen = "media_detail" ∧
      (handle_search_result_select s).screen_stack
        = s.screen_stack ++ [s.current_screen] ∧
      (handle_search_result_select s).selected_index = s.selected_index) ∧
    (0 ≤ s.selected_index → s.selected_index < (s.browse_results.length : Int) →
      (handle_browse_select s).current_screen = "media_detail" ∧
      (handle_browse_select s).screen_stack
        = s.screen_stack ++ [s.current_screen] ∧
      (handle_browse_select s).selected_index = s.selected_index) := by
  refine ⟨?_, ?_, ?_, ?_⟩
  · rintro (h | h) <;> simp [handle_main_menu_select, h]
  · intro h
    simp [handle_main_menu_select, h, show_message]
  · intro h0 h1
    unfold handle_search_result_select
    rw [if_pos ⟨h0, h1⟩]
    exact ⟨rfl, rfl, rfl⟩
  · intro h0 h1
    unfold handle_browse_select
    rw [if_pos ⟨h0, h1⟩]
    exact ⟨rfl, rfl, rfl⟩

/-- C3 amended witness: selecting Browse Popular (main-menu index 2)
switches to the browse screen with the index still 2, and selecting search
result 1 keeps the index at 1. -/
theorem c3_push_screen_amended_witness :
    (handle_main_menu_select { sampleState with selected_index := 2 }
      0).current_screen = "browse" ∧
    (handle_main_menu_select { sampleState with selected_index := 2 }
      0).selected_index
      = ({ sampleState with selected_index := 2 } : UIState).selected_index ∧
    (handle_search_result_select
      { sampleState with current_screen := "search_results",
                         search_results := [⟨1, "movie"⟩, ⟨2, "tv"⟩],
                         selected_index := 1 }).selected_index
      = ({ sampleState with current_screen := "search_results",
                            search_results := [⟨1, "movie"⟩, ⟨2, "tv"⟩],
                            selected_index := 1 } : UIState).selected_index := by
  have h2 := (c3_push_screen_amended
    { sampleState with selected_index := 2 } 0).2.1 (by decide)
  have hs := (c3_push_screen_amended
    { sampleState with current_screen := "search_results",
                       search_results := [⟨1, "movie"⟩, ⟨2, "tv"⟩],
                       selected_index := 1 } 0).2.2.1 (by decide) (by decide)
  exact ⟨h2.1, h2.2.2, hs.2.2⟩

/-- C5 counterexample: from a starting state whose back-stack is already
non-empty, one pushScreen followed by one goBack leaves the stack
non-empty, refuting the claim that it is always empty afterwards. -/
theorem c5_stack_empty_counterexample :
    (handle_back^[1] (pushAll
      { sampleState with current_screen := "browse",
                         screen_stack := ["main_menu"] }
      ["media_detail"])).screen_stack ≠ [] := by
  decide

/-- C5 amended: for every starting state, k pushScreen calls followed by k
goBack calls return the current screen to the original one and the
back-stack to its original contents (empty exactly when it started empty);
each individual goBack pops the stack into the current screen when the
stack is non-empty, forces main_menu when the stack is empty and the
current screen is not main_menu, and is a no-op otherwise. -/
theorem c5_push_back_roundtrip (s : UIState) (nexts : List String) :
    (handle_back^[nexts.length] (pushAll s nexts)).current_screen
      = s.current_screen ∧
    (handle_back^[nexts.length] (pushAll s nexts)).screen_stack
      = s.screen_stack ∧
    (∀ (t : UIState) (prev : String), t.screen_stack.getLast? = some prev →
      handle_back t = { t with current_screen := prev,
                               screen_stack := t.screen_stack.dropLast,
                               selected_index := 0 }) ∧
    (∀ t : UIState, t.screen_stack = [] → t.current_screen ≠ "main_menu" →
      handle_back t = { t with current_screen := "main_menu",
                               selected_index := 0 }) ∧
    (∀ t : UIState, t.screen_stack = [] → t.current_screen = "main_menu" →
      handle_back t = t) := by
  refine ⟨?_, ?_, ?_, ?_, ?_⟩
  · rw [back_iter_pushAll]
    by_cases h : nexts = []
    · rw [if_pos h]
    · rw [if_neg h]
  · rw [back_iter_pushAll]
    by_cases h : nexts = []
    · rw [if_pos h]
    · rw [if_neg h]
  · intro t prev h
    unfold handle_back
    rw [h]
  · intro t h hne
    simp [handle_back, h, hne]
  · intro t h heq
    simp [handle_back, h, heq]

/-- C5 witness: two pushes then two backs from the initial main menu
restore the main menu and the empty stack, and a back with main_menu on
the stack pops it. -/
theorem c5_push_back_roundtrip_witness :
    (handle_back^[2] (pushAll sampleState ["keyboard", "search_results"])).current_screen
      = sampleState.current_screen ∧
    (handle_back^[2] (pushAll sampleState ["keyboard", "search_results"])).screen_stack
      = sampleState.screen_stack ∧
    handle_back (pushScreen sampleState "browse")
      = { pushScreen sampleState "browse" with
          current_screen := "main_menu",
          screen_stack := (pushScreen sampleState "browse").screen_stack.dropLast,
          selected_index := 0 } := by
  have h := c5_push_back_roundtrip sampleState ["keyboard", "search_results"]
  exact ⟨h.1, h.2.1, h.2.2.1 (pushScreen sampleState "browse") "main_menu" (by decide)⟩

/-! Helper lemmas for the keyboard cursor. -/

lemma keyboard_row_len_of_valid (r : Int) (h0 : 0 ≤ r)
    (h1 : r < (keyboard_layout.length : Int)) : keyboard_row_len r = 10 := by
  have h4 : (keyboard_layout.length : Int) = 4 := by decide
  have : r = 0 ∨ r = 1 ∨ r = 2 ∨ r = 3 := by omega
  rcases this with h | h | h | h <;> subst h <;> decide

lemma kb_move_row_bounds (r y : Int) (h0 : 0 ≤ r) (h1 : r < 4) :
    0 ≤ kb_move_row r y ∧ kb_move_row r y < 4 := by
  have h4 : (keyboard_layout.length : Int) = 4 := by decide
  unfold kb_move_row
  rw [h4]
  split
  · omega
  · split <;> omega

lemma kb_move_col_bounds (c x row : Int) (hc0 : 0 ≤ c) (hc1 : c < 10)
    (hrow : keyboard_row_len row = 10) :
    0 ≤ kb_move_col c x row ∧ kb_move_col c x row < 10 := by
  unfold kb_move_col
  rw [hrow]
  split
  · omega
  · split <;> omega

lemma handle_dpad_keyboard_valid (s : UIState) (h : s.current_screen = "keyboard")
    (hv : kb_valid s) (x y : Int) :
    (handle_dpad_motion s x y).current_screen = "keyboard" ∧
    kb_valid (handle_dpad_motion s x y) := by
  obtain ⟨hr0, hr1, hc0, hc1⟩ := hv
  have h4 : (keyboard_layout.length : Int) = 4 := by decide
  have hrlen : keyboard_row_len s.keyboard_row = 10 :=
    keyboard_row_len_of_valid _ hr0 hr1
  have hrow := kb_move_row_bounds s.keyboard_row y hr0 (by omega)
  have hrow10 : keyboard_row_len (kb_move_row s.keyboard_row y) = 10 :=
    keyboard_row_len_of_valid _ hrow.1 (by omega)
  have hcol := kb_move_col_bounds s.keyboard_col x (kb_move_row s.keyboard_row y)
    hc0 (by omega) hrow10
  unfold handle_dpad_motion
  rw [if_pos h]
  dsimp only
  refine ⟨h, ?_⟩
  unfold kb_valid
  dsimp only
  refine ⟨hrow.1, by omega, hcol.1, ?_⟩
  rw [hrow10]
  exact hcol.2

lemma handle_dpad_fold_valid (moves : List (Int × Int)) :
    ∀ s : UIState, s.current_screen = "keyboard" → kb_valid s →
    (moves.foldl (fun t m => handle_dpad_motion t m.1 m.2) s).current_screen
      = "keyboard" ∧
    kb_valid (moves.foldl (fun t m => handle_dpad_motion t m.1 m.2) s) := by
  induction moves with
  | nil => exact fun s h hv => ⟨h, hv⟩
  | cons m ms ih =>
    intro s h hv
    rw [List.foldl_cons]
    obtain ⟨h1, h2⟩ := handle_dpad_keyboard_valid s h hv m.1 m.2
    exact ih _ h1 h2

/-- C8: on the keyboard screen, starting from valid cursor coordinates,
any single D-pad move clamps (never wraps) the row into [0, numRows-1]
and the column into [0, rowLength-1] of the target row, and any sequence
of moves keeps the cursor at valid indices into the fixed grid. -/
theorem c8_keyboard_cursor_valid (s : UIState)
    (h : s.current_screen = "keyboard") (hv : kb_valid s) :
    (∀ x y : Int, kb_valid (handle_dpad_motion s x y)) ∧
    (∀ moves : List (Int × Int),
      kb_valid (moves.foldl (fun t m => handle_dpad_motion t m.1 m.2) s)) := by
  constructor
  · intro x y
    exact (handle_dpad_keyboard_valid s h hv x y).2
  · intro moves
    exact (handle_dpad_fold_valid moves s h hv).2

/-- C8 witness: from the keyboard screen at the origin, a down-right move
stays valid, and so does a longer move sequence. -/
theorem c8_keyboard_cursor_valid_witness :
    kb_valid (handle_dpad_motion
      { sampleState with current_screen := "keyboard" } 1 (-1)) ∧
    kb_valid ([((1 : Int), (-1 : Int)), (1, -1), (-1, 1), (1, -1)].foldl
      (fun t m => handle_dpad_motion t m.1 m.2)
      { sampleState with current_screen := "keyboard" }) := by
  have h := c8_keyboard_cursor_valid
    { sampleState with current_screen := "keyboard" } (by decide) (by decide)
  exact ⟨h.1 1 (-1), h.2 [(1, -1), (1, -1), (-1, 1), (1, -1)]⟩

/-! Helper lemmas for the deferred back transition. -/

lemma navigate_scheduled_back (t : UIState) (d : Int) :
    (navigate t d).scheduled_back_time = t.scheduled_back_time := by
  unfold navigate
  cases h : nav_items_len t with
  | none => rfl
  | some n =>
    dsimp only
    split
    · rfl
    · split
      · rfl
      · split <;> rfl

lemma handle_back_scheduled_back (t : UIState) :
    (handle_back t).scheduled_back_time = t.scheduled_back_time := by
  unfold handle_back
  cases h : t.screen_stack.getLast? with
  | some prev => rfl
  | none =>
    dsimp only
    split <;> rfl

lemma run_tick_scheduled_back_none (t : UIState)
    (h : t.scheduled_back_time = none) :
    ∀ tick : ℚ, run_tick_scheduled_back t tick = t := by
  intro tick
  unfold run_tick_scheduled_back
  rw [h]

/-- C9: a successful submit-request stores the single deferred slot
`now + 1.5` (overwriting any prior unfired slot — there is only the one
optional field) together with the transient success message expiring in
the future; navigation input never clears the slot; a tick before the
deadline leaves the state unchanged; the first tick at or after the
deadline clears the slot and performs `handle_back` once, and any further
tick is a no-op, so the deferred goBack fires exactly once. -/
theorem c9_deferred_back_fires_once (s : UIState) (now : ℚ) (m : Media)
    (hm : s.selected_media = some m) :
    (handle_media_detail_select s now true).scheduled_back_time
      = some (now + 3 / 2) ∧
    (handle_media_detail_select s now true).message
      = some "Request submitted successfully!" ∧
    now < (handle_media_detail_select s now true).message_time ∧
    (∀ (t : UIState) (d : Int),
      (navigate t d).scheduled_back_time = t.scheduled_back_time) ∧
    (∀ (t : UIState) (T tick : ℚ), t.scheduled_back_time = some T → tick < T →
      run_tick_scheduled_back t tick = t) ∧
    (∀ (t : UIState) (T tick : ℚ), t.scheduled_back_time = some T → T ≤ tick →
      run_tick_scheduled_back t tick
        = handle_back { t with scheduled_back_time := none } ∧
      (run_tick_scheduled_back t tick).scheduled_back_time = none ∧
      (∀ tick2 : ℚ,
        run_tick_scheduled_back (run_tick_scheduled_back t tick) tick2
          = run_tick_scheduled_back t tick)) := by
  refine ⟨?_, ?_, ?_, ?_, ?_, ?_⟩
  · simp [handle_media_detail_select, hm, show_message]
  · simp [handle_media_detail_select, hm, show_message]
  · have h3 : (handle_media_detail_select s now true).message_time = now + 3 := by
      simp [handle_media_detail_select, hm, show_message]
    rw [h3]
    linarith
  · exact navigate_scheduled_back
  · intro t T tick ht hlt
    unfold run_tick_scheduled_back
    rw [ht]
    dsimp only
    rw [if_neg (not_le.mpr hlt)]
  · intro t T tick ht hle
    have hfire : run_tick_scheduled_back t tick
        = handle_back { t with scheduled_back_time := none } := by
      unfold run_tick_scheduled_back
      rw [ht]
      dsimp only
      rw [if_pos hle]
    have hnone : (run_tick_scheduled_back t tick).scheduled_back_time = none := by
      rw [hfire, handle_back_scheduled_back]
    exact ⟨hfire, hnone, run_tick_scheduled_back_none _ hnone⟩

/-- C9 witness: submitting from a concrete detail state at time 0 stores
the slot 3/2, and the tick at time 2 fires and clears it. -/
theorem c9_deferred_back_fires_once_witness :
    (handle_media_detail_select
      { sampleState with current_screen := "media_detail",
                         selected_media := some ⟨7, "movie"⟩ }
      0 true).scheduled_back_time = some ((0 : ℚ) + 3 / 2) ∧
    (run_tick_scheduled_back (handle_media_detail_select
      { sampleState with current_screen := "media_detail",
                         selected_media := some ⟨7, "movie"⟩ }
      0 true) 2).scheduled_back_time = none := by
  have h := c9_deferred_back_fires_once
    { sampleState with current_screen := "media_detail",
                       selected_media := some ⟨7, "movie"⟩ }
    0 ⟨7, "movie"⟩ (by decide)
  refine ⟨h.1, ?_⟩
  have h6 := h.2.2.2.2.2 (handle_media_detail_select
    { sampleState with current_screen := "media_detail",
                       selected_media := some ⟨7, "movie"⟩ }
    0 true) ((0 : ℚ) + 3 / 2) 2 h.1 (by norm_num)
  exact h6.2.1

/-- C2 counterexample: two Search dispatches (queries alpha then beta),
with the first resolving after the second; the drain applies completions
in arrival order and the stale first result overwrites the second, so the
final search_results are the first task's, not the second's — there is no
requestId comparison in the code. -/
theorem c2_stale_search_counterexample :
    (apply_search_completions
      (perform_search_dispatch
        (perform_search_dispatch
          { sampleState with current_screen := "keyboard",
                             browse_type := some "movie" }
          0 "alpha")
        0 "beta")
      1
      [⟨"beta", [⟨2, "movie"⟩]⟩, ⟨"alpha", [⟨1, "movie"⟩]⟩]).search_results
      = [⟨1, "movie"⟩] ∧
    ([⟨1, "movie"⟩] : List Media) ≠ [⟨2, "movie"⟩] := by
  decide

/-- C2 amended: search completions are applied in arrival order with no
staleness check; whichever non-empty completion arrives last determines
search_results (last writer wins), even when it belongs to the earlier
dispatch. -/
theorem c2_last_search_completion_wins (s : UIState) (now : ℚ)
    (cs : List SearchCompletion) (c : SearchCompletion) (h : c.results ≠ []) :
    (apply_search_completions s now (cs ++ [c])).search_results = c.results ∧
    (apply_search_completions s now (cs ++ [c])).current_screen
      = "search_results" ∧
    (apply_search_completions s now (cs ++ [c])).selected_index = 0 := by
  unfold apply_search_completions
  rw [List.foldl_append, List.foldl_cons, List.foldl_nil]
  unfold apply_search_completion
  rw [if_pos h]
  exact ⟨rfl, rfl, rfl⟩

/-- C2 amended witness: a concrete stale completion arriving last wins. -/
theorem c2_last_search_completion_wins_witness :
    (apply_search_completions sampleState 0
      [⟨"beta", [⟨2, "tv"⟩]⟩, ⟨"alpha", [⟨1, "movie"⟩]⟩]).search_results
      = [⟨1, "movie"⟩] := by
  have h := c2_last_search_completion_wins sampleState 0
    [⟨"beta", [⟨2, "tv"⟩]⟩] ⟨"alpha", [⟨1, "movie"⟩]⟩ (by decide)
  exact h.1

/-! Helper lemmas for the image cache. -/

lemma cacheLookup_eq_none_iff {α : Type} (entries : List (String × α)) (url : String) :
    cacheLookup entries url = none ↔ ∀ e ∈ entries, e.1 ≠ url := by
  simp [cacheLookup, Option.map_eq_none', List.find?_eq_none]

lemma cacheMem_eq_false_iff {α : Type} (entries : List (String × α)) (url : String) :
    cacheMem entries url = false ↔ ∀ e ∈ entries, e.1 ≠ url := by
  simp [cacheMem, List.any_eq_false]

lemma cacheMem_eq_true_iff {α : Type} (entries : List (String × α)) (url : String) :
    cacheMem entries url = true ↔ ∃ e ∈ entries, e.1 = url := by
  simp [cacheMem, List.any_eq_true]

lemma odSet_fresh {α : Type} (entries : List (String × α)) (url : String) (v : α)
    (h : ∀ e ∈ entries, e.1 ≠ url) :
    odSet entries url v = entries ++ [(url, v)] := by
  have hmem : cacheMem entries url = false := (cacheMem_eq_false_iff entries url).mpr h
  simp [odSet, hmem]

lemma odMoveToEnd_hit {α : Type} (entries : List (String × α)) (url : String) (v : α)
    (h : cacheLookup entries url = some v) :
    odMoveToEnd entries url = entries.filter (fun e => e.1 != url) ++ [(url, v)] := by
  unfold odMoveToEnd
  rw [h]

lemma load_image_miss_insert {α : Type} (c : ImageCache α) (ph img : α)
    (fetch : String → Option α) (url : String)
    (hnew : cacheLookup c.entries url = none) (hurl : url ≠ "")
    (hf : fetch url = some img) :
    (load_image c ph fetch url).2 = add_to_cache c url img := by
  unfold load_image
  rw [if_neg hurl, hnew, hf]

lemma load_image_fresh_full_entries {α : Type} (c : ImageCache α) (ph img : α)
    (fetch : String → Option α) (url : String)
    (hfull : c.maxSize ≤ c.entries.length)
    (hnew : cacheLookup c.entries url = none) (hurl : url ≠ "")
    (hf : fetch url = some img) :
    (load_image c ph fetch url).2.entries = c.entries.drop 1 ++ [(url, img)] := by
  rw [load_image_miss_insert c ph img fetch url hnew hurl hf]
  unfold add_to_cache
  dsimp only
  rw [if_pos hfull]
  apply odSet_fresh
  intro e he
  exact (cacheLookup_eq_none_iff _ _).mp hnew e (List.mem_of_mem_drop he)

lemma load_images_fresh_formula {α : Type} (ph : α) (f : String → α) (cap : Nat)
    (hcap : 1 ≤ cap) :
    ∀ urls : List String, urls.Nodup → (∀ u ∈ urls, u ≠ "") →
    load_images_all ⟨[], cap⟩ ph (fun u => some (f u)) urls
      = ⟨(urls.drop (urls.length - cap)).map (fun u => (u, f u)), cap⟩ := by
  intro urls
  induction urls using List.reverseRecOn with
  | nil => intro _ _; simp [load_images_all]
  | append_singleton us u ih =>
    intro hnodup hne
    obtain ⟨nd1, _, hdisj⟩ := List.nodup_append.mp hnodup
    have hu_not : u ∉ us := fun hmem => hdisj hmem (by simp)
    have ihs := ih nd1 (fun v hv => hne v (by simp [hv]))
    have hstep : load_images_all ⟨[], cap⟩ ph (fun v => some (f v)) (us ++ [u])
        = (load_image (load_images_all ⟨[], cap⟩ ph (fun v => some (f v)) us)
            ph (fun v => some (f v)) u).2 := by
      unfold load_images_all
      rw [List.foldl_append, List.foldl_cons, List.foldl_nil]
    have hu_ne : u ≠ "" := hne u (by simp)
    have hfresh : ∀ e ∈ (us.drop (us.length - cap)).map (fun v => (v, f v)),
        e.1 ≠ u := by
      intro e he
      obtain ⟨v, hv, rfl⟩ := List.mem_map.mp he
      intro heq
      exact hu_not (heq ▸ List.mem_of_mem_drop hv)
    have hlk : cacheLookup ((us.drop (us.length - cap)).map (fun v => (v, f v))) u
        = none := (cacheLookup_eq_none_iff _ _).mpr hfresh
    rw [hstep, ihs,
        load_image_miss_insert ⟨(us.drop (us.length - cap)).map (fun v => (v, f v)), cap⟩
          ph (f u) (fun v => some (f v)) u hlk hu_ne rfl]
    unfold add_to_cache
    dsimp only
    simp only [ImageCache.mk.injEq, and_true]
    by_cases hcase : cap ≤ us.length
    · have hElen : ((us.drop (us.length - cap)).map (fun v => (v, f v))).length = cap := by
        simp only [List.length_map, List.length_drop]
        omega
      rw [if_pos (le_of_eq hElen.symm)]
      rw [odSet_fresh _ u (f u)
        (fun e he => hfresh e (List.mem_of_mem_drop he))]
      have hd1 : (((us.drop (us.length - cap)).map (fun v => (v, f v))).drop 1)
          = ((us.drop ((us.length - cap) + 1)).map (fun v => (v, f v))) := by
        rw [← List.map_drop, List.drop_drop]
      rw [hd1]
      have hidx : (us ++ [u]).length - cap = (us.length - cap) + 1 := by
        simp only [List.length_append, List.length_singleton]
        omega
      rw [hidx]
      have hle : (us.length - cap) + 1 ≤ us.length := by omega
      rw [List.drop_append_of_le_length hle, List.map_append]
      rfl
    · have hElen : ((us.drop (us.length - cap)).map (fun v => (v, f v))).length
          = us.length := by
        simp only [List.length_map, List.length_drop]
        omega
      rw [if_neg (by rw [hElen]; omega)]
      rw [odSet_fresh _ u (f u) hfresh]
      have h0 : us.length - cap = 0 := by omega
      have h0' : (us ++ [u]).length - cap = 0 := by
        simp only [List.length_append, List.length_singleton]
        omega
      rw [h0, h0', List.drop_zero, List.drop_zero, List.map_append]
      rfl

lemma load_image_hit {α : Type} (c : ImageCache α) (ph v : α)
    (fetch : String → Option α) (k : String)
    (hk : cacheLookup c.entries k = some v) (hkne : k ≠ "") :
    load_image c ph fetch k
      = (v, { c with entries := c.entries.filter (fun e => e.1 != k) ++ [(k, v)] }) := by
  unfold load_image
  rw [if_neg hkne, hk]
  dsimp only
  rw [odMoveToEnd_hit c.entries k v hk]

lemma cacheLookup_some_mem {α : Type} (entries : List (String × α)) (url : String)
    (v : α) (h : cacheLookup entries url = some v) :
    ∃ e, e ∈ entries ∧ e.1 = url ∧ e.2 = v := by
  unfold cacheLookup at h
  cases hfind : entries.find? (fun e => e.1 == url) with
  | none => rw [hfind] at h; simp at h
  | some a =>
    rw [hfind] at h
    simp only [Option.map_some'] at h
    refine ⟨a, List.mem_of_find?_eq_some hfind, ?_, by injection h⟩
    have := List.find?_some hfind
    simpa using this

/-- C1: the LRU image cache respects its capacity. (a) From a state at
capacity, loading a fresh URL with a successful fetch first evicts the
least-recently-used (front) entry and then inserts, so exactly capacity
entries remain and the key of the previous front entry is absent (given
the OrderedDict invariant of pairwise-distinct keys). (b) Loading
capacity + 1 distinct non-empty URLs into an empty cache leaves exactly
capacity entries with the first-loaded URL absent. (c) A cache hit moves
the entry to the most-recently-used end, so a following insertion of a
fresh URL (capacity at least 2) never evicts the just-read key. -/
theorem c1_image_cache_lru_eviction (α : Type) :
    (∀ (c : ImageCache α) (ph img : α) (fetch : String → Option α) (url : String),
      (c.entries.map Prod.fst).Nodup → c.entries.length = c.maxSize →
      1 ≤ c.maxSize → cacheLookup c.entries url = none → url ≠ "" →
      fetch url = some img →
      (load_image c ph fetch url).2.entries = c.entries.drop 1 ++ [(url, img)] ∧
      (load_image c ph fetch url).2.entries.length = c.maxSize ∧
      (∀ e0, c.entries.head? = some e0 →
        cacheMem (load_image c ph fetch url).2.entries e0.1 = false)) ∧
    (∀ (ph : α) (f : String → α) (cap : Nat) (urls : List String),
      1 ≤ cap → urls.Nodup → (∀ u ∈ urls, u ≠ "") → urls.length = cap + 1 →
      (load_images_all ⟨[], cap⟩ ph (fun u => some (f u)) urls).entries.length
        = cap ∧
      (∀ u0, urls.head? = some u0 →
        cacheMem (load_images_all ⟨[], cap⟩ ph
          (fun u => some (f u)) urls).entries u0 = false)) ∧
    (∀ (c : ImageCache α) (ph v img2 : α) (fetch : String → Option α)
        (k k2 : String),
      2 ≤ c.maxSize → cacheLookup c.entries k = some v → k ≠ "" →
      cacheLookup c.entries k2 = none → k2 ≠ "" → fetch k2 = some img2 →
      (load_image c ph fetch k).1 = v ∧
      (load_image c ph fetch k).2.entries.getLast? = some (k, v) ∧
      cacheMem (load_image (load_image c ph fetch k).2
        ph fetch k2).2.entries k = true) := by
  refine ⟨?_, ?_, ?_⟩
  · intro c ph img fetch url hn hfull hpos hnew hurl hf
    have hA1 := load_image_fresh_full_entries c ph img fetch url
      (le_of_eq hfull.symm) hnew hurl hf
    refine ⟨hA1, ?_, ?_⟩
    · rw [hA1]
      simp only [List.length_append, List.length_drop, List.length_singleton]
      omega
    · intro e0 he0
      obtain ⟨t, ht⟩ : ∃ t, c.entries = e0 :: t := by
        cases hc : c.entries with
        | nil => rw [hc] at he0; simp at he0
        | cons a t =>
          rw [hc] at he0
          simp only [List.head?_cons, Option.some.injEq] at he0
          exact ⟨t, by rw [he0]⟩
      rw [hA1, ht]
      apply (cacheMem_eq_false_iff _ _).mpr
      intro e he
      have he' : e ∈ t ++ [(url, img)] := by simpa using he
      have hn' : (e0.1 :: t.map Prod.fst).Nodup := by
        rw [ht] at hn
        simpa using hn
      have hnd : e0.1 ∉ t.map Prod.fst := (List.nodup_cons.mp hn').1
      rcases List.mem_append.mp he' with h1 | h1
      · intro heq
        exact hnd (heq ▸ List.mem_map_of_mem Prod.fst h1)
      · have hne0 : e0.1 ≠ url :=
          (cacheLookup_eq_none_iff _ _).mp hnew e0 (by rw [ht]; exact List.mem_cons_self _ _)
        rw [List.mem_singleton.mp h1]
        exact Ne.symm hne0
  · intro ph f cap urls hcap hnodup hne hlen
    have hform := load_images_fresh_formula ph f cap hcap urls hnodup hne
    constructor
    · rw [hform]
      simp only [List.length_map, List.length_drop, hlen]
      omega
    · intro u0 hu0
      obtain ⟨t, ht⟩ : ∃ t, urls = u0 :: t := by
        cases hc : urls with
        | nil => rw [hc] at hu0; simp at hu0
        | cons a t =>
          rw [hc] at hu0
          simp only [List.head?_cons, Option.some.injEq] at hu0
          exact ⟨t, by rw [hu0]⟩
      rw [hform]
      dsimp only
      apply (cacheMem_eq_false_iff _ _).mpr
      intro e he
      obtain ⟨v, hv, rfl⟩ := List.mem_map.mp he
      have h1 : urls.length - cap = 1 := by omega
      rw [h1, ht] at hv
      have hdv : v ∈ t := by simpa using hv
      have hnd : u0 ∉ t := by
        rw [ht] at hnodup
        exact (List.nodup_cons.mp hnodup).1
      intro heq
      dsimp only at heq
      exact hnd (heq ▸ hdv)
  · intro c ph v img2 fetch k k2 hcap2 hk hkne hk2 hk2ne hf2
    have hhit := load_image_hit c ph v fetch k hk hkne
    obtain ⟨ek, hekmem, hek1, _⟩ := cacheLookup_some_mem c.entries k v hk
    have hfresh2 : ∀ e ∈ c.entries.filter (fun e => e.1 != k) ++ [(k, v)],
        e.1 ≠ k2 := by
      intro e he
      rcases List.mem_append.mp he with h1 | h1
      · exact (cacheLookup_eq_none_iff _ _).mp hk2 e (List.filter_subset' _ h1)
      · rw [List.mem_singleton.mp h1]
        intro hkk
        exact (cacheLookup_eq_none_iff _ _).mp hk2 ek hekmem (hek1.trans hkk)
    have hlk2 : cacheLookup
        ({ c with entries := c.entries.filter (fun e => e.1 != k) ++ [(k, v)] }
          : ImageCache α).entries k2 = none :=
      (cacheLookup_eq_none_iff _ _).mpr hfresh2
    refine ⟨by rw [hhit], by rw [hhit]; exact List.getLast?_concat _, ?_⟩
    rw [hhit]
    dsimp only
    rw [load_image_miss_insert _ ph img2 fetch k2 hlk2 hk2ne hf2]
    unfold add_to_cache
    dsimp only
    by_cases hev : c.maxSize ≤ (c.entries.filter (fun e => e.1 != k) ++ [(k, v)]).length
    · rw [if_pos hev]
      have hFlen : 1 ≤ (c.entries.filter (fun e => e.1 != k)).length := by
        have hl : (c.entries.filter (fun e => e.1 != k) ++ [(k, v)]).length
            = (c.entries.filter (fun e => e.1 != k)).length + 1 := by simp
        omega
      rw [List.drop_append_of_le_length hFlen]
      rw [odSet_fresh _ k2 img2 (fun e he => hfresh2 e (by
        rcases List.mem_append.mp he with h1 | h1
        · exact List.mem_append.mpr (Or.inl (List.mem_of_mem_drop h1))
        · exact List.mem_append.mpr (Or.inr h1)))]
      apply (cacheMem_eq_true_iff _ _).mpr
      exact ⟨(k, v), by simp, rfl⟩
    · rw [if_neg hev]
      rw [odSet_fresh _ k2 img2 hfresh2]
      apply (cacheMem_eq_true_iff _ _).mpr
      exact ⟨(k, v), by simp, rfl⟩

/-- C1 witness: a capacity-2 cache at capacity evicts its front entry on a
fresh load; loading 3 distinct URLs into an empty capacity-2 cache keeps 2
with the first absent; a hit on key a followed by a fresh insertion evicts
b, not the just-read a. -/
theorem c1_image_cache_lru_eviction_witness :
    (load_image (⟨[("a", 1), ("b", 2)], 2⟩ : ImageCache Nat) 0
      (fun _ => some 3) "c").2.entries = [("b", 2), ("c", 3)] ∧
    (load_images_all (⟨[], 2⟩ : ImageCache Nat) 0
      (fun u => some ((fun _ => 5) u)) ["a", "b", "c"]).entries.length = 2 ∧
    cacheMem (load_images_all (⟨[], 2⟩ : ImageCache Nat) 0
      (fun u => some ((fun _ => 5) u)) ["a", "b", "c"]).entries "a" = false ∧
    cacheMem (load_image (load_image (⟨[("a", 1), ("b", 2)], 2⟩ : ImageCache Nat) 0
      (fun _ => some 9) "a").2 0 (fun _ => some 9) "c").2.entries "a" = true := by
  have h := c1_image_cache_lru_eviction Nat
  have hA := h.1 ⟨[("a", 1), ("b", 2)], 2⟩ 0 3 (fun _ => some 3) "c"
    (by decide) (by decide) (by decide) (by decide) (by decide) rfl
  have hB := h.2.1 0 (fun _ => 5) 2 ["a", "b", "c"]
    (by decide) (by decide) (by decide) (by decide)
  have hC := h.2.2 ⟨[("a", 1), ("b", 2)], 2⟩ 0 1 9 (fun _ => some 9) "a" "c"
    (by decide) (by decide) (by decide) (by decide) (by decide) rfl
  exact ⟨hA.1.trans (by decide), hB.1, hB.2 "a" (by decide), hC.2.2⟩

/-- C6: when the fetch-and-decode pipeline fails on a non-cached URL
(download failure, oversized payload, or decode failure, all reported as
`none`), `load_image` returns the placeholder and leaves the cache
unchanged, and the immediately following call for the same URL again
returns the placeholder (the failure is not cached); an empty URL returns
the placeholder with an unchanged cache for every fetch function, i.e.
without consulting the network at all. -/
theorem c6_load_image_failure_placeholder {α : Type} (c : ImageCache α)
    (placeholder : α) (fetch : String → Option α) (url : String) :
    (url ≠ "" → cacheLookup c.entries url = none → fetch url = none →
      load_image c placeholder fetch url = (placeholder, c) ∧
      load_image (load_image c placeholder fetch url).2 placeholder fetch url
        = (placeholder, c)) ∧
    (∀ fetch2 : String → Option α,
      load_image c placeholder fetch2 "" = (placeholder, c)) := by
  constructor
  · intro hurl hlk hf
    have h1 : load_image c placeholder fetch url = (placeholder, c) := by
      unfold load_image
      rw [if_neg hurl, hlk, hf]
    refine ⟨h1, ?_⟩
    rw [h1]
    exact h1
  · intro fetch2
    unfold load_image
    rw [if_pos rfl]

/-- C6 witness: a failing fetch for URL b leaves a concrete cache
unchanged twice in a row, and an empty URL with a succeeding fetch also
returns the placeholder and an unchanged cache. -/
theorem c6_load_image_failure_placeholder_witness :
    load_image (⟨[("a", 1)], 50⟩ : ImageCache Nat) 0 (fun _ => none) "b"
      = (0, ⟨[("a", 1)], 50⟩) ∧
    load_image (⟨[("a", 1)], 50⟩ : ImageCache Nat) 0 (fun _ => some 7) ""
      = (0, ⟨[("a", 1)], 50⟩) := by
  have h := c6_load_image_failure_placeholder (⟨[("a", 1)], 50⟩ : ImageCache Nat)
    0 (fun _ => none) "b"
  exact ⟨(h.1 (by decide) (by decide) rfl).1, h.2 (fun _ => some 7)⟩
